import Mathlib

/-!
Verification of the FacebookProfiler core pipeline.

This file shallowly embeds the data-selection and chunking pipeline of the
repository:

* `src/src/utils/promptDataSelector.js` — `normalizePath`, `matchesPattern`,
  `selectDataForPrompt`;
* `src/src/utils/profileAnalyzer.js` — `processJsonFiles` (the chunker),
  `generateProfile` (single-chunk submission with retry/backoff) and
  `analyzeProfile` (multi-chunk orchestration).

Modelling conventions:

* JavaScript strings are modelled by Lean `String` (a list of characters).
  JS indexes UTF-16 code units and Lean indexes code points; the two agree on
  the ASCII data the program manipulates.
* `String.prototype.toLowerCase` is modelled by an explicit ASCII lowering
  table (`lowerPairs`): non-ASCII case folding is not exercised by the
  repository's path patterns.
* JS objects used as string-keyed maps (`jsonFiles`, `extractedData`,
  `selectedData`) are modelled as association lists `List (String × String)`
  in key-insertion order, which is exactly the enumeration order of
  `Object.entries` / `Object.keys` for such objects.  Key lookup
  (`obj[k]`) is `List.lookup`; the JS truthiness test `!obj[k]` succeeds both
  when the key is absent and when the stored value is the empty string, and is
  modelled accordingly.
* `JSON.parse` followed by `JSON.stringify(·, null, 2)` (applied by the
  chunker to `.json` files) is a JS builtin, not repository code; it is
  modelled as an explicit function parameter
  `jsonReformat : String → Option String`, where `none` models
  `JSON.parse` throwing (the surrounding `try { … } catch` then skips the
  file).
* Network effects (`fetch`) are modelled as oracles: `generateProfile`'s
  successive fetch results are an oracle `Nat → FetchOutcome` indexed by
  attempt number, and `analyzeProfile`'s per-chunk submissions are an oracle
  `Nat → Except String String` indexed by chunk number (`.error` models the
  thrown error after `generateProfile` exhausts its retries, or a prompt-load
  failure).  Thrown JS exceptions are modelled by `Except String`, carrying
  the error message.
* `setTimeout` sleeps are recorded as a list of delay durations (in
  milliseconds) instead of actually elapsing; wall-clock stats (`duration`)
  are omitted from the model for the same reason.
-/

namespace FacebookProfiler

/-! ## Models of the JavaScript string builtins used by the pipeline -/

/-- ASCII lowering table: `String.prototype.toLowerCase`, restricted to the
ASCII letters (the only case-carrying characters in the repository's data). -/
def lowerPairs : List (Char × Char) :=
  [('A','a'), ('B','b'), ('C','c'), ('D','d'), ('E','e'), ('F','f'), ('G','g'),
   ('H','h'), ('I','i'), ('J','j'), ('K','k'), ('L','l'), ('M','m'), ('N','n'),
   ('O','o'), ('P','p'), ('Q','q'), ('R','r'), ('S','s'), ('T','t'), ('U','u'),
   ('V','v'), ('W','w'), ('X','x'), ('Y','y'), ('Z','z')]

/-- Lower one character (identity outside `A`–`Z`). -/
def lowerChar (c : Char) : Char := (lowerPairs.lookup c).getD c

/-- `s.toLowerCase()`. -/
def jsToLower (s : String) : String := String.mk (s.data.map lowerChar)

/-- One step of `path.replace(/\\/g, '/')`. -/
def repSlash (c : Char) : Char := if c = '\\' then '/' else c

/-- `s.endsWith(t)`. -/
def jsEndsWith (s t : String) : Bool := decide (t.data <:+ s.data)

/-- `s.startsWith(t)`. -/
def jsStartsWith (s t : String) : Bool := decide (t.data <+: s.data)

/-- `s.includes(t)`. -/
def jsIncludes (s t : String) : Bool := decide (t.data <:+: s.data)

/-- `String.prototype.replace` with a *string* first argument replaces only
the first occurrence of `pat` (a string pattern is literal, not a regex).
List-level worker scanning left to right. -/
def replaceFirstList (pat rep : List Char) : List Char → List Char
  | [] => if pat.isPrefixOf [] then rep else []
  | c :: rest =>
    if pat.isPrefixOf (c :: rest) then rep ++ (c :: rest).drop pat.length
    else c :: replaceFirstList pat rep rest

/-- `s.replace(pat, rep)` for a string `pat` (first occurrence only). -/
def jsReplaceFirst (s pat rep : String) : String :=
  String.mk (replaceFirstList pat.data rep.data s.data)

/-- `s.substring(0, n)`. -/
def jsSubstringTo (s : String) (n : Nat) : String := String.mk (s.data.take n)

/-! ## Path Pattern Matcher (`src/src/utils/promptDataSelector.js`) -/

/-- `normalizePath` (promptDataSelector.js lines 25–27):
`path.replace(/\\/g, '/').toLowerCase()`. -/
def normalizePath (path : String) : String :=
  jsToLower (String.mk (path.data.map repSlash))

/-- `matchesPattern` (promptDataSelector.js lines 32–46), with the JS
`const`s inlined: `normalizedFile` = `normalizePath filePath`,
`normalizedPattern` = `normalizePath pat`, and
`basePattern = normalizedPattern.replace('.json', '')` =
`jsReplaceFirst (normalizePath pat) ".json" ""`.  The then-branch is
`jsonMatch || htmlMatch`, the else-branch the folder test. -/
def matchesPattern (filePath pat : String) : Bool :=
  if jsEndsWith (normalizePath pat) ".json" then
    (normalizePath filePath == normalizePath pat
      || jsEndsWith (normalizePath filePath) ("/" ++ normalizePath pat))
    || (normalizePath filePath == jsReplaceFirst (normalizePath pat) ".json" "" ++ ".html"
      || jsEndsWith (normalizePath filePath)
          ("/" ++ jsReplaceFirst (normalizePath pat) ".json" "" ++ ".html"))
  else
    jsStartsWith (normalizePath filePath) (normalizePath pat ++ "/")
      || jsIncludes (normalizePath filePath) ("/" ++ normalizePath pat ++ "/")

/-! ## File Selector (`src/src/utils/promptDataSelector.js`) -/

/-- One entry of `prompt_config.json`'s `prompts` array.  `data` is `none`
when the profile object has no `data` field (a JS-falsy value at
`!promptSettings.data`); note that an empty array `[]` is *truthy* in JS and
is therefore modelled as `some []`. -/
structure PromptProfile where
  name : String
  data : Option (List String)
deriving DecidableEq

/-- The configuration document.  `prompts := none` models a document without
a (truthy) `prompts` field. -/
structure PromptConfig where
  prompts : Option (List PromptProfile)
deriving DecidableEq

/-- The object returned by `selectDataForPrompt`.  `selectedCount` and
`patterns` are absent (`none`) on the fail-open paths, which return a smaller
object literal. -/
structure SelectionResult where
  selectedData : List (String × String)
  usedFiles : List String
  configFound : Bool
  totalFiles : Nat
  selectedCount : Option Nat
  patterns : Option (List String)
deriving DecidableEq

/-- The fail-open object literal (promptDataSelector.js lines 62–67 and
75–80): all data points are used and `configFound` is `false`. -/
def failOpenResult (extractedData : List (String × String)) : SelectionResult :=
  { selectedData := extractedData
    usedFiles := extractedData.map Prod.fst
    configFound := false
    totalFiles := extractedData.length
    selectedCount := none
    patterns := none }

/-- Body of the `matchingFiles.forEach` callback (promptDataSelector.js lines
99–104): `if (!selectedData[file]) { selectedData[file] = extractedData[file];
usedFiles.push(file); }`.  The truthiness test means a file is (re-)added not
only when absent but also when its stored content is the empty string; a
re-add overwrites the value in place (key order unchanged) and pushes the
path onto `usedFiles` again. -/
def addFile (extractedData : List (String × String))
    (acc : List (String × String) × List String) (file : String) :
    List (String × String) × List String :=
  match acc.1.lookup file with
  | none =>
    (acc.1 ++ [(file, (extractedData.lookup file).getD "")], acc.2 ++ [file])
  | some v =>
    if v = "" then
      (acc.1.map (fun kv => if kv.1 == file then (file, (extractedData.lookup file).getD "") else kv),
       acc.2 ++ [file])
    else acc

/-- The pattern loop (promptDataSelector.js lines 86–108): for each pattern
in order, filter the available paths through `matchesPattern` and fold the
matches through `addFile`.  (The `matchingFiles.length > 0` test only guards
a log line; `forEach` over an empty array is a no-op either way.) -/
def selectLoop (extractedData : List (String × String)) (patterns : List String) :
    List (String × String) × List String :=
  patterns.foldl
    (fun acc pat =>
      ((extractedData.map Prod.fst).filter
        (fun filePath => matchesPattern filePath pat)).foldl (addFile extractedData) acc)
    ([], [])

/-- The rest of `selectDataForPrompt` once `promptSettings` — the result of
`promptConfig.prompts.find(p => p.name === promptName)` — is at hand
(promptDataSelector.js lines 73–120): the `!promptSettings ||
!promptSettings.data` test fails open; otherwise the pattern loop runs and
the success-shaped result object is built. -/
def selectFor (extractedData : List (String × String)) :
    Option PromptProfile → SelectionResult
  | none => failOpenResult extractedData
  | some promptSettings =>
    match promptSettings.data with
    | none => failOpenResult extractedData
    | some pats =>
      { selectedData := (selectLoop extractedData pats).1
        usedFiles := (selectLoop extractedData pats).2
        configFound := true
        totalFiles := extractedData.length
        selectedCount := some (selectLoop extractedData pats).2.length
        patterns := some pats }

/-- `selectDataForPrompt` (promptDataSelector.js lines 54–121).  The
`loadPromptConfig()` network fetch is external input; its result (or `none`
for a load failure) is the `promptConfig` argument. -/
def selectDataForPrompt (promptConfig : Option PromptConfig) (promptName : String)
    (extractedData : List (String × String)) : SelectionResult :=
  match promptConfig with
  | none => failOpenResult extractedData
  | some config =>
    match config.prompts with
    | none => failOpenResult extractedData
    | some prompts =>
      selectFor extractedData (prompts.find? (fun p => p.name == promptName))

/-! ## Chunker (`src/src/utils/profileAnalyzer.js`, `processJsonFiles`) -/

/-- The two chunking limits.  The source constructor fixes
`MAX_CHUNK_SIZE = 3500000` and `MAX_FILES_PER_CHUNK = 100`
(profileAnalyzer.js lines 17–18); they are instance fields, kept as
parameters here with the source values in `defaultChunkConfig`. -/
structure ChunkConfig where
  maxChunkSize : Nat
  maxFilesPerChunk : Nat
deriving DecidableEq

/-- The constants from the `ProfileAnalyzer` constructor. -/
def defaultChunkConfig : ChunkConfig :=
  { maxChunkSize := 3500000, maxFilesPerChunk := 100 }

/-- The fixed truncation notice appended to over-long `.html` contents
(profileAnalyzer.js line 96). -/
def truncNotice : String := "\n\n[Content truncated due to length...]"

/-- Per-file formatting (profileAnalyzer.js lines 84–101).  All contents in
the extracted-file map are strings, so the `typeof content === 'string'`
branches always take the string side.  For a `.json` file the content is
re-serialized by `JSON.stringify(JSON.parse(content), null, 2)`, modelled by
the `jsonReformat` oracle (`none` = `JSON.parse` threw; the `catch` in the
loop then skips the file).  `.html` contents longer than 50000 characters
are truncated.  Anything else passes through unchanged. -/
def formatFile (jsonReformat : String → Option String) (filename content : String) :
    Option String :=
  if jsEndsWith (jsToLower filename) ".json" then
    jsonReformat content
  else if jsEndsWith (jsToLower filename) ".html" then
    some (if 50000 < content.length then jsSubstringTo content 50000 ++ truncNotice
          else content)
  else
    some content

/-- `` const fileEntry = `\n\n### FILE: ${filename}\n\n${formattedContent}` ``
(profileAnalyzer.js line 103). -/
def fileEntry (filename formattedContent : String) : String :=
  "\n\n### FILE: " ++ filename ++ "\n\n" ++ formattedContent

/-- The mutable chunking state of the loop: the closed chunks, the open
accumulator string and its file count. -/
structure ChunkState where
  chunks : List String
  currentChunk : String
  filesInCurrentChunk : Nat
deriving DecidableEq

/-- One iteration of the packing loop for a formatted entry `e`
(profileAnalyzer.js lines 105–116): if appending `e` would exceed
`maxChunkSize`, or the open chunk already holds `maxFilesPerChunk` files and
is non-empty, the open chunk is closed (pushed, even when it is the empty
initial string) and `e` starts a fresh chunk; otherwise `e` is appended. -/
def chunkStep (cfg : ChunkConfig) (st : ChunkState) (e : String) : ChunkState :=
  if cfg.maxChunkSize < st.currentChunk.length + e.length
      ∨ (cfg.maxFilesPerChunk ≤ st.filesInCurrentChunk ∧ 0 < st.currentChunk.length) then
    { chunks := st.chunks ++ [st.currentChunk], currentChunk := e, filesInCurrentChunk := 1 }
  else
    { chunks := st.chunks, currentChunk := st.currentChunk ++ e,
      filesInCurrentChunk := st.filesInCurrentChunk + 1 }

/-- Insert `a` into an ascending list, before the first element it compares
`≤` to — the unique position a stable sort gives an element relative to an
already-sorted tail of originally-later elements. -/
def insertLe {α : Type} (le : α → α → Bool) (a : α) : List α → List α
  | [] => [a]
  | b :: bs => if le a b then a :: b :: bs else b :: insertLe le a bs

/-- Stable ascending sort (insertion sort).  `Array.prototype.sort` is
required by the ECMAScript spec to be stable, and a stable sort by a total
comparator is unique, so this models the JS sort exactly. -/
def jsSortBy {α : Type} (le : α → α → Bool) (l : List α) : List α :=
  l.foldr (insertLe le) []

/-- The sort of `profileAnalyzer.js` lines 78–80: ascending by content
length (`(a[1]?.length || 0) - (b[1]?.length || 0)`; contents are strings,
so the `?.`/`|| 0` guards are inert). -/
def sortEntries (jsonFiles : List (String × String)) : List (String × String) :=
  jsSortBy (fun a b => decide (a.2.length ≤ b.2.length)) jsonFiles

/-- The formatted entry of one file, `none` when its formatting throws. -/
def formattedEntry (jsonReformat : String → Option String) (fc : String × String) :
    Option String :=
  (formatFile jsonReformat fc.1 fc.2).map (fun f => fileEntry fc.1 f)

/-- The successfully formatted entries of the sorted file list, in loop
order.  Files whose `JSON.parse` throws are skipped by the `catch` block
(profileAnalyzer.js lines 124–126), which is exactly `filterMap`. -/
def formattedEntries (jsonReformat : String → Option String)
    (jsonFiles : List (String × String)) : List String :=
  (sortEntries jsonFiles).filterMap (formattedEntry jsonReformat)

/-- The state of the packing loop after all files have been processed. -/
def chunkFold (jsonReformat : String → Option String) (cfg : ChunkConfig)
    (jsonFiles : List (String × String)) : ChunkState :=
  (formattedEntries jsonReformat jsonFiles).foldl (chunkStep cfg)
    { chunks := [], currentChunk := "", filesInCurrentChunk := 0 }

/-- `processJsonFiles` (profileAnalyzer.js lines 68–139): sort by content
size, format each file, pack into chunks, and flush the trailing open chunk
if it is non-empty (`if (currentChunk.length > 0) chunks.push(currentChunk)`,
lines 130–132). -/
def processJsonFiles (jsonReformat : String → Option String) (cfg : ChunkConfig)
    (jsonFiles : List (String × String)) : List String :=
  if 0 < (chunkFold jsonReformat cfg jsonFiles).currentChunk.length then
    (chunkFold jsonReformat cfg jsonFiles).chunks
      ++ [(chunkFold jsonReformat cfg jsonFiles).currentChunk]
  else
    (chunkFold jsonReformat cfg jsonFiles).chunks

/-! ## Analysis Driver — single-chunk submission with retries
(`src/src/utils/profileAnalyzer.js`, `generateProfile`) -/

/-- `response.choices[0].message.content` shape. -/
structure RespMessage where
  content : String
deriving DecidableEq

/-- One element of the `choices` array. -/
structure RespChoice where
  message : RespMessage
deriving DecidableEq

/-- Parsed JSON body of a 2xx response; `choices := none` models a body with
no (truthy) `choices` field. -/
structure ResponseBody where
  choices : Option (List RespChoice)
deriving DecidableEq

/-- Outcome of one `fetch` of the proxy endpoint: a network error (rejected
promise), a non-2xx status (`detail` is the stringified error body, or the
status text when the body fails to parse — profileAnalyzer.js lines
204–214), or a 2xx response with a parsed JSON body. -/
inductive FetchOutcome where
  | networkError (msg : String)
  | httpError (status : Nat) (detail : String)
  | httpOk (body : ResponseBody)
deriving DecidableEq

/-- What one iteration of the retry loop's `try` block produces from a fetch
outcome (profileAnalyzer.js lines 196–228): non-2xx statuses and malformed
success bodies (`!responseData.choices || responseData.choices.length === 0`)
are converted into thrown errors, otherwise the first choice's message
content is returned. -/
def attemptOutcome : FetchOutcome → Except String String
  | .networkError msg => .error msg
  | .httpError status detail =>
    .error ("OpenRouter API error: Status: " ++ toString status ++ " - " ++ detail)
  | .httpOk body =>
    match body.choices with
    | none => .error "No choices returned from OpenRouter API"
    | some [] => .error "No choices returned from OpenRouter API"
    | some (c :: _) => .ok c.message.content

/-- `this.MAX_RETRIES` (profileAnalyzer.js line 21). -/
def MAX_RETRIES : Nat := 3

/-- `this.RETRY_DELAY` in milliseconds (profileAnalyzer.js line 22). -/
def RETRY_DELAY : Nat := 2000

/-- The `while (retries <= this.MAX_RETRIES)` loop (profileAnalyzer.js lines
189–248), with `fetchAt i` the outcome of the `i`-th fetch (0-based) and the
fuel argument the number of retries still allowed after the current attempt.
Returns the loop's result (`.error` = the error thrown after the last
allowed attempt fails, carrying that attempt's message) together with the
list of backoff delays slept, in order: after the failure of attempt `i`
with retries remaining, the code sleeps
`this.RETRY_DELAY * Math.pow(2, retries - 1) = RETRY_DELAY * 2 ^ i`. -/
def runRetries (fetchAt : Nat → FetchOutcome) (baseDelay : Nat) :
    Nat → Nat → Except String String × List Nat
  | i, 0 => (attemptOutcome (fetchAt i), [])
  | i, n + 1 =>
    match attemptOutcome (fetchAt i) with
    | .ok t => (.ok t, [])
    | .error _ =>
      ((runRetries fetchAt baseDelay (i + 1) n).1,
       baseDelay * 2 ^ i :: (runRetries fetchAt baseDelay (i + 1) n).2)

/-- `generateProfile`'s control flow for one chunk: up to `MAX_RETRIES`
retries after the first attempt, exponential backoff starting at
`RETRY_DELAY`.  (The prompt/request construction in lines 157–186 only
builds the constant request body and does not influence the retry policy;
the per-attempt fetch outcomes are the oracle.) -/
def generateProfileRun (fetchAt : Nat → FetchOutcome) : Except String String × List Nat :=
  runRetries fetchAt RETRY_DELAY 0 MAX_RETRIES

/-! ## Analysis Driver — multi-chunk orchestration
(`src/src/utils/profileAnalyzer.js`, `analyzeProfile`) -/

/-- The `stats` object of a successful `analyzeProfile` return
(profileAnalyzer.js lines 314–322), minus the wall-clock `duration`. -/
structure AnalyzeStats where
  filesProcessed : Nat
  chunksProcessed : Nat
  chunksSuccessful : Nat
  chunksFailed : List Nat
  profileLength : Nat
  wordCount : Nat
deriving DecidableEq

/-- The object `analyzeProfile` resolves with: either the success-path shape
(profile string and stats) or the catch-path shape (`success: false`, the
error's message, `profile: null`). -/
structure AnalyzeResult where
  success : Bool
  profile : Option String
  error : Option String
  stats : Option AnalyzeStats
deriving DecidableEq

/-- `combinedProfile.split(/\s+/).length`.  JS `split` on a whitespace-run
regex yields one element per maximal non-whitespace run, plus an empty
leading (trailing) element when the string starts (ends) with whitespace,
and `[""]` for the empty string. -/
def nonWsRuns : List Char → Bool → Nat
  | [], _ => 0
  | c :: rest, inRun =>
    if c.isWhitespace then nonWsRuns rest false
    else (if inRun then 0 else 1) + nonWsRuns rest true

/-- Length of `s.split(/\s+/)`. -/
def jsSplitWsCount (s : String) : Nat :=
  if s.data.isEmpty then 1
  else
    nonWsRuns s.data false
      + (if (s.data.head?.getD 'x').isWhitespace then 1 else 0)
      + (if (s.data.getLast?.getD 'x').isWhitespace then 1 else 0)

/-- One iteration of the multi-chunk `for` loop (profileAnalyzer.js lines
276–305), acting on the pair (`combinedProfile`, `failedChunks`): a
successful chunk replaces `combinedProfile` only when it is the first
(`i === 0`) or the last (`i === n - 1`) chunk; a failed chunk appends its
1-based index to `failedChunks` and continues. -/
def multiChunkStep (n : Nat) (acc : String × List Nat) (io : Nat × Except String String) :
    String × List Nat :=
  match io.2 with
  | .ok chunkProfile =>
    if io.1 = 0 then (chunkProfile, acc.2)
    else if io.1 = n - 1 then (chunkProfile, acc.2)
    else acc
  | .error _ => (acc.1, acc.2 ++ [io.1 + 1])

/-- The whole multi-chunk loop over chunk indices `0 .. n-1`, where
`submit i` is the outcome of `generateProfile` on chunk `i` (`.error` models
the exception thrown after all retries fail). -/
def multiChunkFold (n : Nat) (submit : Nat → Except String String) : String × List Nat :=
  ((List.range n).map (fun i => (i, submit i))).foldl (multiChunkStep n) ("", [])

/-- The `try` block of `analyzeProfile` (profileAnalyzer.js lines 257–323):
chunk the input; throw on zero chunks; submit the single chunk directly
(propagating its exception) or run the multi-chunk loop; assemble the
success-path result object.  `.error` is an exception escaping the block. -/
def analyzeProfileTry (jsonReformat : String → Option String) (cfg : ChunkConfig)
    (submit : Nat → Except String String) (jsonFiles : List (String × String)) :
    Except String AnalyzeResult :=
  if (processJsonFiles jsonReformat cfg jsonFiles).length = 0 then
    .error "No valid data chunks to process"
  else
    (match (if (processJsonFiles jsonReformat cfg jsonFiles).length = 1 then
              (submit 0).map (fun t => (t, ([] : List Nat)))
            else
              .ok (multiChunkFold (processJsonFiles jsonReformat cfg jsonFiles).length submit)) with
     | .error e => .error e
     | .ok res =>
       .ok { success := decide (res.2.length = 0) || decide (0 < res.1.length)
             profile := some res.1
             error := none
             stats := some
               { filesProcessed := jsonFiles.length
                 chunksProcessed := (processJsonFiles jsonReformat cfg jsonFiles).length
                 chunksSuccessful := (processJsonFiles jsonReformat cfg jsonFiles).length - res.2.length
                 chunksFailed := res.2
                 profileLength := res.1.length
                 wordCount := jsSplitWsCount res.1 } })

/-- `analyzeProfile` (profileAnalyzer.js lines 256–333): the `try` block
wrapped in the `catch` that converts any thrown error into
`{ success: false, error: error.message, profile: null }`. -/
def analyzeProfile (jsonReformat : String → Option String) (cfg : ChunkConfig)
    (submit : Nat → Except String String) (jsonFiles : List (String × String)) :
    AnalyzeResult :=
  match analyzeProfileTry jsonReformat cfg submit jsonFiles with
  | .ok r => r
  | .error e => { success := false, profile := none, error := some e, stats := none }

/-! ## Verification-level definitions (ghost views of the chunker, and
concrete inputs referenced by the theorems below) -/

/-- Concatenation of a list of strings (the payload of a chunk viewed as the
list of file entries it packs). -/
def strConcat : List String → String
  | [] => ""
  | s :: rest => s ++ strConcat rest

/-- Character-level action of `normalizePath`: backslash replacement
followed by lowering. -/
def normChar (c : Char) : Char := lowerChar (repSlash c)

/-- Ghost view of `chunkStep`: the same packing decision, but keeping each
chunk as the list of whole file entries it packs instead of their
concatenation.  The state is (closed chunks, open chunk). -/
def chunkStepG (cfg : ChunkConfig) (st : List (List String) × List String) (e : String) :
    List (List String) × List String :=
  if cfg.maxChunkSize < (strConcat st.2).length + e.length
      ∨ (cfg.maxFilesPerChunk ≤ st.2.length ∧ 0 < (strConcat st.2).length) then
    (st.1 ++ [st.2], [e])
  else
    (st.1, st.2 ++ [e])

/-- The ghost view of `chunkFold`. -/
def chunkFoldG (jsonReformat : String → Option String) (cfg : ChunkConfig)
    (jsonFiles : List (String × String)) : List (List String) × List String :=
  (formattedEntries jsonReformat jsonFiles).foldl (chunkStepG cfg) ([], [])

/-- The partition of the formatted entries into chunks that
`processJsonFiles` concatenates (proved below: mapping `strConcat` over it
gives exactly `processJsonFiles`' output). -/
def chunkPartition (jsonReformat : String → Option String) (cfg : ChunkConfig)
    (jsonFiles : List (String × String)) : List (List String) :=
  if 0 < (strConcat (chunkFoldG jsonReformat cfg jsonFiles).2).length then
    (chunkFoldG jsonReformat cfg jsonFiles).1 ++ [(chunkFoldG jsonReformat cfg jsonFiles).2]
  else
    (chunkFoldG jsonReformat cfg jsonFiles).1

/-- Three 10-character files: under a 40-character chunk budget each file
entry (29 characters) gets its own chunk, giving a 3-chunk run. -/
def scenarioFiles : List (String × String) :=
  [("a.txt", "aaaaaaaaaa"), ("b.txt", "bbbbbbbbbb"), ("c.txt", "cccccccccc")]

/-- Chunk-submission outcomes of the spec's 3-chunk scenario: chunk 2 fails
all retries, chunks 1 and 3 succeed. -/
def scenarioSubmit : Nat → Except String String := fun i =>
  if i = 0 then .ok "A" else if i = 1 then .error "midfail" else .ok "C"

/-- Chunk-submission outcomes refuting claim C1's general statement: chunks
1 and 2 succeed (with outputs "A" and "B"), chunk 3 fails all retries. -/
def counterexSubmit : Nat → Except String String := fun i =>
  if i = 0 then .ok "A" else if i = 1 then .ok "B" else .error "boom"

/-- An `.html` content longer than the 50000-character truncation limit. -/
def bigHtml : String := String.mk (List.replicate 50001 'x')

/-- Invariant of the selector's accumulator (`selectedData`, `usedFiles`)
maintained by the pattern loop when no extracted content is the empty
string: the keys of `selectedData` in insertion order are exactly
`usedFiles`, without duplicates, all drawn from the extracted paths, and all
stored contents are non-empty. -/
def SelectorInv (extractedData : List (String × String))
    (acc : List (String × String) × List String) : Prop :=
  acc.1.map Prod.fst = acc.2 ∧ acc.2.Nodup
    ∧ (∀ f ∈ acc.2, f ∈ extractedData.map Prod.fst)
    ∧ (∀ p ∈ acc.1, p.2 ≠ "")

/-! ## Basic lemmas about the helper functions -/

theorem strConcat_append (l₁ l₂ : List String) :
    strConcat (l₁ ++ l₂) = strConcat l₁ ++ strConcat l₂ := by
  induction l₁ with
  | nil =>
    apply String.ext
    simp [strConcat, String.data_append]
  | cons s t ih =>
    apply String.ext
    simp [strConcat, String.data_append, congrArg String.data ih]

theorem strConcat_singleton (s : String) : strConcat [s] = s := by
  show s ++ strConcat [] = s
  exact String.append_empty s

theorem length_le_of_mem_strConcat {e : String} {l : List String} (h : e ∈ l) :
    e.length ≤ (strConcat l).length := by
  induction l with
  | nil => cases h
  | cons s t ih =>
    rcases List.mem_cons.mp h with rfl | h'
    · simp only [strConcat, String.length_append]
      omega
    · have := ih h'
      simp only [strConcat, String.length_append]
      omega

theorem eq_empty_of_length_zero {s : String} (h : s.length = 0) : s = "" := by
  apply String.ext
  simpa using List.length_eq_zero.mp h

theorem strConcat_nil_of_ne {l : List String} (hne : ∀ e ∈ l, e ≠ "")
    (h : (strConcat l).length = 0) : l = [] := by
  cases l with
  | nil => rfl
  | cons s t =>
    exfalso
    simp only [strConcat, String.length_append] at h
    exact hne s (List.mem_cons_self s t) (eq_empty_of_length_zero (by omega))

theorem insertLe_perm {α : Type} (le : α → α → Bool) (a : α) (l : List α) :
    (insertLe le a l).Perm (a :: l) := by
  induction l with
  | nil => exact List.Perm.refl _
  | cons b bs ih =>
    unfold insertLe
    split
    · exact List.Perm.refl _
    · exact (List.Perm.cons b ih).trans (List.Perm.swap a b bs)

theorem jsSortBy_perm {α : Type} (le : α → α → Bool) (l : List α) :
    (jsSortBy le l).Perm l := by
  induction l with
  | nil => exact List.Perm.refl _
  | cons a t ih =>
    exact (insertLe_perm le a (jsSortBy le t)).trans (List.Perm.cons a ih)

theorem sortEntries_perm (jsonFiles : List (String × String)) :
    (sortEntries jsonFiles).Perm jsonFiles :=
  jsSortBy_perm _ jsonFiles

/-! ## The chunker computes a partition of the formatted entries -/

theorem foldl_chunkStep_eq (cfg : ChunkConfig) (entries : List String)
    (chs : List (List String)) (cur : List String) :
    entries.foldl (chunkStep cfg)
      { chunks := chs.map strConcat, currentChunk := strConcat cur,
        filesInCurrentChunk := cur.length } =
    { chunks := ((entries.foldl (chunkStepG cfg) (chs, cur)).1).map strConcat,
      currentChunk := strConcat (entries.foldl (chunkStepG cfg) (chs, cur)).2,
      filesInCurrentChunk := (entries.foldl (chunkStepG cfg) (chs, cur)).2.length } := by
  induction entries generalizing chs cur with
  | nil => rfl
  | cons e t ih =>
    simp only [List.foldl_cons]
    by_cases hc : cfg.maxChunkSize < (strConcat cur).length + e.length
        ∨ (cfg.maxFilesPerChunk ≤ cur.length ∧ 0 < (strConcat cur).length)
    · rw [show chunkStep cfg
          { chunks := chs.map strConcat, currentChunk := strConcat cur,
            filesInCurrentChunk := cur.length } e =
          { chunks := (chs ++ [cur]).map strConcat, currentChunk := strConcat [e],
            filesInCurrentChunk := [e].length } by
        simp [chunkStep, if_pos hc, strConcat_singleton]]
      rw [show chunkStepG cfg (chs, cur) e = (chs ++ [cur], [e]) by
        simp [chunkStepG, if_pos hc]]
      exact ih (chs ++ [cur]) [e]
    · rw [show chunkStep cfg
          { chunks := chs.map strConcat, currentChunk := strConcat cur,
            filesInCurrentChunk := cur.length } e =
          { chunks := chs.map strConcat, currentChunk := strConcat (cur ++ [e]),
            filesInCurrentChunk := (cur ++ [e]).length } by
        simp [chunkStep, if_neg hc, strConcat_append, strConcat_singleton]]
      rw [show chunkStepG cfg (chs, cur) e = (chs, cur ++ [e]) by
        simp [chunkStepG, if_neg hc]]
      exact ih chs (cur ++ [e])

theorem chunkFold_eq (jsonReformat : String → Option String) (cfg : ChunkConfig)
    (jsonFiles : List (String × String)) :
    chunkFold jsonReformat cfg jsonFiles =
    { chunks := (chunkFoldG jsonReformat cfg jsonFiles).1.map strConcat,
      currentChunk := strConcat (chunkFoldG jsonReformat cfg jsonFiles).2,
      filesInCurrentChunk := (chunkFoldG jsonReformat cfg jsonFiles).2.length } := by
  have h := foldl_chunkStep_eq cfg (formattedEntries jsonReformat jsonFiles) [] []
  simp only [List.map_nil, List.length_nil] at h
  rw [show (strConcat []) = "" from rfl] at h
  exact h

theorem processJsonFiles_eq (jsonReformat : String → Option String) (cfg : ChunkConfig)
    (jsonFiles : List (String × String)) :
    processJsonFiles jsonReformat cfg jsonFiles =
      (chunkPartition jsonReformat cfg jsonFiles).map strConcat := by
  unfold processJsonFiles chunkPartition
  rw [chunkFold_eq]
  split
  · simp
  · rfl

theorem chunkStepG_flatten (cfg : ChunkConfig) (entries : List String)
    (st : List (List String) × List String) :
    (entries.foldl (chunkStepG cfg) st).1.flatten ++ (entries.foldl (chunkStepG cfg) st).2 =
    st.1.flatten ++ st.2 ++ entries := by
  induction entries generalizing st with
  | nil => simp
  | cons e t ih =>
    simp only [List.foldl_cons]
    rw [ih]
    unfold chunkStepG
    split
    · simp
    · simp

theorem chunkStepG_sizeInv (cfg : ChunkConfig) (entries : List String)
    (st : List (List String) × List String)
    (h1 : ∀ es ∈ st.1, (strConcat es).length ≤ cfg.maxChunkSize ∨ es.length = 1)
    (h2 : (strConcat st.2).length ≤ cfg.maxChunkSize ∨ st.2.length = 1) :
    (∀ es ∈ (entries.foldl (chunkStepG cfg) st).1,
        (strConcat es).length ≤ cfg.maxChunkSize ∨ es.length = 1)
    ∧ ((strConcat (entries.foldl (chunkStepG cfg) st).2).length ≤ cfg.maxChunkSize
        ∨ (entries.foldl (chunkStepG cfg) st).2.length = 1) := by
  induction entries generalizing st with
  | nil => exact ⟨h1, h2⟩
  | cons e t ih =>
    simp only [List.foldl_cons]
    unfold chunkStepG
    by_cases hc : cfg.maxChunkSize < (strConcat st.2).length + e.length
        ∨ (cfg.maxFilesPerChunk ≤ st.2.length ∧ 0 < (strConcat st.2).length)
    · rw [if_pos hc]
      refine ih _ ?_ (Or.inr rfl)
      intro es hes
      rcases List.mem_append.mp hes with h' | h'
      · exact h1 es h'
      · rw [List.mem_singleton.mp h']
        exact h2
    · rw [if_neg hc]
      refine ih _ h1 (Or.inl ?_)
      push_neg at hc
      rw [strConcat_append, strConcat_singleton, String.length_append]
      omega

theorem chunkStepG_neInv (cfg : ChunkConfig) (entries : List String)
    (st : List (List String) × List String)
    (he : ∀ e ∈ entries, e ≠ "") (h2 : ∀ e ∈ st.2, e ≠ "") :
    ∀ e ∈ (entries.foldl (chunkStepG cfg) st).2, e ≠ "" := by
  induction entries generalizing st with
  | nil => exact h2
  | cons e t ih =>
    simp only [List.foldl_cons]
    unfold chunkStepG
    have hhd : e ≠ "" := he e (List.mem_cons_self e t)
    have htl : ∀ x ∈ t, x ≠ "" := fun x hx => he x (List.mem_cons_of_mem e hx)
    split
    · refine ih _ htl ?_
      intro x hx
      rw [List.mem_singleton.mp hx]
      exact hhd
    · refine ih _ htl ?_
      intro x hx
      rcases List.mem_append.mp hx with h' | h'
      · exact h2 x h'
      · rw [List.mem_singleton.mp h']
        exact hhd

theorem fileEntry_length (a b : String) :
    (fileEntry a b).length = 14 + a.length + b.length := by
  have h1 : ("\n\n### FILE: " : String).length = 12 := by decide
  have h2 : ("\n\n" : String).length = 2 := by decide
  simp only [fileEntry, String.length_append, h1, h2]
  omega

theorem fileEntry_ne (a b : String) : fileEntry a b ≠ "" := by
  intro h
  have h0 : (fileEntry a b).length = 0 := by rw [h]; rfl
  rw [fileEntry_length] at h0
  omega

theorem formattedEntries_ne (jsonReformat : String → Option String)
    (jsonFiles : List (String × String)) :
    ∀ e ∈ formattedEntries jsonReformat jsonFiles, e ≠ "" := by
  intro e he
  obtain ⟨fc, _, hfc⟩ := List.mem_filterMap.mp he
  obtain ⟨f, _, rfl⟩ := Option.map_eq_some'.mp hfc
  exact fileEntry_ne _ _

theorem chunkPartition_flatten (jsonReformat : String → Option String) (cfg : ChunkConfig)
    (jsonFiles : List (String × String)) :
    (chunkPartition jsonReformat cfg jsonFiles).flatten =
      formattedEntries jsonReformat jsonFiles := by
  unfold chunkPartition
  have hj := chunkStepG_flatten cfg (formattedEntries jsonReformat jsonFiles) ([], [])
  simp only [List.flatten_nil, List.nil_append] at hj
  split
  · rw [List.flatten_append]
    simpa using hj
  · rename_i hlen
    have hnil : (chunkFoldG jsonReformat cfg jsonFiles).2 = [] := by
      refine strConcat_nil_of_ne ?_ (by omega)
      exact chunkStepG_neInv cfg _ ([], []) (formattedEntries_ne _ _) (by simp)
    rw [show (chunkFoldG jsonReformat cfg jsonFiles) =
      (formattedEntries jsonReformat jsonFiles).foldl (chunkStepG cfg) ([], []) from rfl] at hnil
    rw [hnil, List.append_nil] at hj
    exact hj

theorem chunkPartition_size (jsonReformat : String → Option String) (cfg : ChunkConfig)
    (jsonFiles : List (String × String)) :
    ∀ es ∈ chunkPartition jsonReformat cfg jsonFiles,
      (strConcat es).length ≤ cfg.maxChunkSize ∨ es.length = 1 := by
  have hinv := chunkStepG_sizeInv cfg (formattedEntries jsonReformat jsonFiles) ([], [])
    (by simp) (Or.inl (by simp [strConcat]))
  intro es hes
  unfold chunkPartition at hes
  split at hes
  · rcases List.mem_append.mp hes with h' | h'
    · exact hinv.1 es h'
    · rw [List.mem_singleton.mp h']
      exact hinv.2
  · exact hinv.1 es hes

theorem formattedEntries_perm (jsonReformat : String → Option String)
    (jsonFiles : List (String × String)) :
    (formattedEntries jsonReformat jsonFiles).Perm
      (jsonFiles.filterMap (formattedEntry jsonReformat)) :=
  (sortEntries_perm jsonFiles).filterMap _

/-! ## Association-list lookup facts (JS `obj[key]` on string-keyed objects) -/

theorem lookup_none_iff {α β : Type} [BEq α] [LawfulBEq α] (k : α) (l : List (α × β)) :
    l.lookup k = none ↔ k ∉ l.map Prod.fst := by
  induction l with
  | nil => simp
  | cons p t ih =>
    obtain ⟨a, b⟩ := p
    by_cases hk : k = a
    · subst hk
      simp [List.lookup_cons]
    · rw [List.lookup_cons, show (k == a) = false from beq_eq_false_iff_ne.mpr hk]
      simpa [hk] using ih

theorem lookup_some_mem {α β : Type} [BEq α] [LawfulBEq α] {k : α} {v : β}
    {l : List (α × β)} (h : l.lookup k = some v) : (k, v) ∈ l := by
  induction l with
  | nil => simp [List.lookup] at h
  | cons p t ih =>
    obtain ⟨a, b⟩ := p
    rw [List.lookup_cons] at h
    by_cases hk : k = a
    · subst hk
      rw [show (k == k) = true from beq_self_eq_true k] at h
      simp only [Option.some.injEq] at h
      subst h
      exact List.mem_cons_self _ _
    · rw [show (k == a) = false from beq_eq_false_iff_ne.mpr hk] at h
      exact List.mem_cons_of_mem _ (ih h)

theorem mem_lookup_exists {α β : Type} [BEq α] [LawfulBEq α] {k : α} {l : List (α × β)}
    (h : k ∈ l.map Prod.fst) : ∃ v, l.lookup k = some v := by
  cases hl : l.lookup k with
  | none => exact absurd h ((lookup_none_iff k l).mp hl)
  | some v => exact ⟨v, rfl⟩

/-! ## The selector's accumulator invariant -/

theorem addFile_inv (extractedData : List (String × String))
    (hne : ∀ p ∈ extractedData, p.2 ≠ "")
    (acc : List (String × String) × List String) (file : String)
    (hfile : file ∈ extractedData.map Prod.fst)
    (hinv : SelectorInv extractedData acc) :
    SelectorInv extractedData (addFile extractedData acc file) := by
  obtain ⟨h1, h2, h3, h4⟩ := hinv
  unfold addFile
  cases hl : acc.1.lookup file with
  | none =>
    obtain ⟨c, hc⟩ := mem_lookup_exists hfile
    have hcne : c ≠ "" := hne _ (lookup_some_mem hc)
    have hnotin : file ∉ acc.2 := by
      rw [← h1]
      exact (lookup_none_iff file acc.1).mp hl
    refine ⟨by simp [h1], ?_, ?_, ?_⟩
    · simp [List.nodup_append, h2, hnotin]
    · intro f hf
      rcases List.mem_append.mp hf with h' | h'
      · exact h3 f h'
      · rw [List.mem_singleton.mp h']
        exact hfile
    · intro q hq
      rcases List.mem_append.mp hq with h' | h'
      · exact h4 q h'
      · rw [List.mem_singleton.mp h']
        simpa [hc] using hcne
  | some v =>
    have hvne : v ≠ "" := h4 _ (lookup_some_mem hl)
    simp only [if_neg hvne]
    exact ⟨h1, h2, h3, h4⟩

theorem foldl_addFile_inv (extractedData : List (String × String))
    (hne : ∀ p ∈ extractedData, p.2 ≠ "") (fs : List String)
    (hfs : ∀ f ∈ fs, f ∈ extractedData.map Prod.fst)
    (acc : List (String × String) × List String)
    (hinv : SelectorInv extractedData acc) :
    SelectorInv extractedData (fs.foldl (addFile extractedData) acc) := by
  induction fs generalizing acc with
  | nil => exact hinv
  | cons f t ih =>
    exact ih (fun x hx => hfs x (List.mem_cons_of_mem f hx)) _
      (addFile_inv extractedData hne acc f (hfs f (List.mem_cons_self f t)) hinv)

theorem selectLoop_inv (extractedData : List (String × String))
    (hne : ∀ p ∈ extractedData, p.2 ≠ "") (patterns : List String) :
    SelectorInv extractedData (selectLoop extractedData patterns) := by
  suffices h : ∀ (pats : List String) (acc : List (String × String) × List String),
      SelectorInv extractedData acc →
      SelectorInv extractedData (pats.foldl
        (fun acc pat =>
          ((extractedData.map Prod.fst).filter
            (fun filePath => matchesPattern filePath pat)).foldl (addFile extractedData) acc)
        acc) by
    exact h patterns ([], []) ⟨rfl, List.nodup_nil, by simp, by simp⟩
  intro pats
  induction pats with
  | nil => exact fun acc h => h
  | cons p t ih =>
    intro acc h
    refine ih _ (foldl_addFile_inv extractedData hne _ ?_ acc h)
    intro f hf
    exact List.mem_of_mem_filter hf

/-! ## Character-lowering and path-normalization facts -/

theorem lowerPairs_lookup_values : ∀ p ∈ lowerPairs, lowerPairs.lookup p.2 = none := by decide

theorem lowerPairs_values_ne_bs : ∀ p ∈ lowerPairs, p.2 ≠ '\\' := by decide

theorem lowerChar_idem (c : Char) : lowerChar (lowerChar c) = lowerChar c := by
  unfold lowerChar
  cases hl : lowerPairs.lookup c with
  | none => simp [hl]
  | some v =>
    have hv := lowerPairs_lookup_values (c, v) (lookup_some_mem hl)
    simp [hl, hv]

theorem lowerChar_ne_bs {c : Char} (h : c ≠ '\\') : lowerChar c ≠ '\\' := by
  unfold lowerChar
  cases hl : lowerPairs.lookup c with
  | none => simpa using h
  | some v => simpa using lowerPairs_values_ne_bs (c, v) (lookup_some_mem hl)

theorem repSlash_ne_bs (c : Char) : repSlash c ≠ '\\' := by
  unfold repSlash
  split
  · decide
  · assumption

theorem repSlash_of_ne {c : Char} (h : c ≠ '\\') : repSlash c = c := if_neg h

theorem normChar_idem (c : Char) : normChar (normChar c) = normChar c := by
  show lowerChar (repSlash (lowerChar (repSlash c))) = lowerChar (repSlash c)
  rw [repSlash_of_ne (lowerChar_ne_bs (repSlash_ne_bs c))]
  exact lowerChar_idem _

theorem normalizePath_data (p : String) :
    (normalizePath p).data = p.data.map normChar := by
  simp [normalizePath, jsToLower, normChar, List.map_map, Function.comp]

theorem normalizePath_fixed {s : String} (h : ∀ c ∈ s.data, normChar c = c) :
    normalizePath s = s := by
  apply String.ext
  rw [normalizePath_data]
  calc s.data.map normChar = s.data.map id := List.map_congr_left (by simpa using h)
    _ = s.data := List.map_id _

theorem normalizePath_chars (p : String) :
    ∀ c ∈ (normalizePath p).data, normChar c = c := by
  intro c hc
  rw [normalizePath_data] at hc
  obtain ⟨a, _, rfl⟩ := List.mem_map.mp hc
  exact normChar_idem a

theorem html_chars_fixed : ∀ c ∈ (".html" : String).data, normChar c = c := by decide

theorem slash_chars_fixed : ∀ c ∈ ("/" : String).data, normChar c = c := by decide

theorem mem_replaceFirstList {pat rep : List Char} :
    ∀ {l : List Char} {c : Char}, c ∈ replaceFirstList pat rep l → c ∈ rep ∨ c ∈ l := by
  intro l
  induction l with
  | nil =>
    intro c hc
    unfold replaceFirstList at hc
    split at hc
    · exact Or.inl hc
    · cases hc
  | cons a t ih =>
    intro c hc
    unfold replaceFirstList at hc
    split at hc
    · rcases List.mem_append.mp hc with h' | h'
      · exact Or.inl h'
      · exact Or.inr (List.drop_subset _ _ h')
    · rcases List.mem_cons.mp hc with rfl | h'
      · exact Or.inr (List.mem_cons_self _ _)
      · rcases ih h' with h'' | h''
        · exact Or.inl h''
        · exact Or.inr (List.mem_cons_of_mem _ h'')

theorem basePattern_chars {np : String} (hnp : ∀ c ∈ np.data, normChar c = c) :
    ∀ c ∈ (jsReplaceFirst np ".json" "").data, normChar c = c := by
  intro c hc
  rcases @mem_replaceFirstList (".json" : String).data ("" : String).data np.data c hc
      with h | h
  · cases h
  · exact hnp c h

/-! ## Retry-loop facts -/

theorem runRetries_congr (d : Nat) :
    ∀ (n i : Nat) (f g : Nat → FetchOutcome),
      (∀ j, i ≤ j → j ≤ i + n → f j = g j) →
      runRetries f d i n = runRetries g d i n := by
  intro n
  induction n with
  | zero =>
    intro i f g h
    unfold runRetries
    rw [h i le_rfl (by omega)]
  | succ n ih =>
    intro i f g h
    unfold runRetries
    rw [h i le_rfl (by omega)]
    cases attemptOutcome (g i) with
    | ok t => rfl
    | error e =>
      rw [ih (i + 1) f g (fun j hj1 hj2 => h j (by omega) (by omega))]

theorem runRetries_delays (d : Nat) :
    ∀ (n i : Nat) (f : Nat → FetchOutcome),
      ∃ m, m ≤ n ∧ (runRetries f d i n).2 = (List.range' i m).map (fun k => d * 2 ^ k) := by
  intro n
  induction n with
  | zero => intro i f; exact ⟨0, le_rfl, rfl⟩
  | succ n ih =>
    intro i f
    unfold runRetries
    cases hao : attemptOutcome (f i) with
    | ok t => exact ⟨0, by omega, rfl⟩
    | error e =>
      obtain ⟨m, hm, he⟩ := ih (i + 1) f
      refine ⟨m + 1, by omega, ?_⟩
      rw [List.range'_succ]
      simp [he]

theorem runRetries_allFail (d : Nat) :
    ∀ (n i : Nat) (f : Nat → FetchOutcome),
      (∀ j, j ≤ n → ∃ e, attemptOutcome (f (i + j)) = .error e) →
      (runRetries f d i n).1 = attemptOutcome (f (i + n)) := by
  intro n
  induction n with
  | zero =>
    intro i f _
    simp [runRetries]
  | succ n ih =>
    intro i f h
    obtain ⟨e, he⟩ := h 0 (by omega)
    rw [show i + 0 = i from rfl] at he
    unfold runRetries
    rw [he]
    have hrec := ih (i + 1) f (fun j hj => by
      obtain ⟨e', he'⟩ := h (j + 1) (by omega)
      exact ⟨e', by rw [show i + 1 + j = i + (j + 1) from by omega]; exact he'⟩)
    rw [show i + 1 + n = i + (n + 1) from by omega] at hrec
    simpa using hrec

theorem runRetries_err_congr (d : Nat) :
    ∀ (n i : Nat) (f g : Nat → FetchOutcome),
      (∀ k, i ≤ k → k ≤ i + n →
        f k = g k ∨ (k < i + n ∧ (∃ e, attemptOutcome (f k) = .error e)
          ∧ (∃ e, attemptOutcome (g k) = .error e))) →
      runRetries f d i n = runRetries g d i n := by
  intro n
  induction n with
  | zero =>
    intro i f g h
    rcases h i le_rfl (by omega) with hfg | ⟨hlt, _, _⟩
    · unfold runRetries
      rw [hfg]
    · omega
  | succ n ih =>
    intro i f g h
    have hrec := ih (i + 1) f g (fun k h1 h2 => by
      rcases h k (by omega) (by omega) with hfg | ⟨hlt, he⟩
      · exact Or.inl hfg
      · exact Or.inr ⟨by omega, he⟩)
    rcases h i le_rfl (by omega) with hfg | ⟨_, ⟨e1, he1⟩, ⟨e2, he2⟩⟩
    · unfold runRetries
      rw [hfg]
      cases attemptOutcome (g i) with
      | ok t => rfl
      | error e => rw [hrec]
    · unfold runRetries
      rw [he1, he2, hrec]

/-! ## Multi-chunk loop facts -/

theorem foldl_multiChunkStep_middle (n : Nat) (submit : Nat → Except String String) :
    ∀ (l : List Nat) (acc : String × List Nat),
      (∀ i ∈ l, i ≠ 0 ∧ i ≠ n - 1) →
      ((l.map (fun i => (i, submit i))).foldl (multiChunkStep n) acc).1 = acc.1 := by
  intro l
  induction l with
  | nil => intro acc _; rfl
  | cons i t ih =>
    intro acc h
    simp only [List.map_cons, List.foldl_cons]
    rw [ih _ (fun x hx => h x (List.mem_cons_of_mem i hx))]
    obtain ⟨hi0, hin⟩ := h i (List.mem_cons_self i t)
    unfold multiChunkStep
    cases submit i with
    | ok t' => simp [hi0, hin]
    | error e => rfl

theorem multiChunkStep_ok (n : Nat) (acc : String × List Nat) (i : Nat) (t : String) :
    multiChunkStep n acc (i, .ok t) =
      if i = 0 then (t, acc.2) else if i = n - 1 then (t, acc.2) else acc := rfl

theorem multiChunkStep_err (n : Nat) (acc : String × List Nat) (i : Nat) (e : String) :
    multiChunkStep n acc (i, .error e) = (acc.1, acc.2 ++ [i + 1]) := rfl

theorem multiChunkFold_fst (submit : Nat → Except String String) (n : Nat) (h : 2 ≤ n) :
    (multiChunkFold n submit).1 =
      (match submit (n - 1) with
       | .ok t => t
       | .error _ => match submit 0 with | .ok t => t | .error _ => "") := by
  obtain ⟨m, rfl⟩ : ∃ m, n = m + 2 := ⟨n - 2, by omega⟩
  unfold multiChunkFold
  rw [show m + 2 = (m + 1) + 1 from rfl, List.range_succ, List.map_append, List.foldl_append,
    List.range_succ_eq_map]
  simp only [List.map_cons, List.foldl_cons, List.map_nil, List.foldl_nil]
  have hmid : ∀ acc : String × List Nat,
      (((List.range m).map Nat.succ |>.map (fun i => (i, submit i))).foldl
        (multiChunkStep (m + 1 + 1)) acc).1 = acc.1 := by
    intro acc
    refine foldl_multiChunkStep_middle (m + 1 + 1) submit _ acc ?_
    intro i hi
    obtain ⟨j, hj, rfl⟩ := List.mem_map.mp hi
    have := List.mem_range.mp hj
    exact ⟨by omega, by omega⟩
  rw [show m + 1 + 1 - 1 = m + 1 from rfl]
  cases hn : submit (m + 1) with
  | ok tn =>
    rw [multiChunkStep_ok, if_neg (by omega : ¬ (m + 1 = 0)),
      if_pos (by omega : m + 1 = m + 1 + 1 - 1)]
  | error e =>
    rw [multiChunkStep_err]
    show (((List.range m).map Nat.succ |>.map (fun i => (i, submit i))).foldl
        (multiChunkStep (m + 1 + 1)) (multiChunkStep (m + 1 + 1) ("", []) (0, submit 0))).1 =
      (match submit 0 with | .ok t => t | .error _ => "")
    rw [hmid]
    cases h0 : submit 0 with
    | ok t0 => rw [multiChunkStep_ok, if_pos rfl]
    | error e0 => rw [multiChunkStep_err]

/-! ## Remaining helper lemmas -/

theorem map_normChar_fixed {l : List Char} (h : ∀ c ∈ l, normChar c = c) :
    l.map normChar = l :=
  (List.map_congr_left (by simpa using h)).trans (List.map_id l)

theorem suffix_eq_of_length {l₁ l₂ l : List Char} (h1 : l₁ <:+ l) (h2 : l₂ <:+ l)
    (hlen : l₁.length = l₂.length) : l₁ = l₂ := by
  obtain ⟨t1, e1⟩ := h1
  obtain ⟨t2, e2⟩ := h2
  have he : t2 ++ l₂ = t1 ++ l₁ := by rw [e1, e2]
  have hl : t2.length = t1.length := by
    have := congrArg List.length he
    simp only [List.length_append] at this
    omega
  exact ((List.append_inj he hl).2).symm

theorem suffix_html_not_json {s : String} (h : jsEndsWith s ".html" = true) :
    jsEndsWith s ".json" = false := by
  have hh : (".html" : String).data <:+ s.data := by
    simpa [jsEndsWith] using h
  cases hj : jsEndsWith s ".json" with
  | false => rfl
  | true =>
    exfalso
    have hj' : (".json" : String).data <:+ s.data := by
      simpa [jsEndsWith] using hj
    have : (".json" : String).data = (".html" : String).data :=
      suffix_eq_of_length hj' hh (by decide)
    exact absurd this (by decide)

/-! ## The claims -/

/-- Claim C1 (corrected).  The original claim — "after every successful
chunk submission the running final result is replaced by that chunk's
output, so the returned result equals the output of the last chunk whose
submission succeeded" — is false: the loop in profileAnalyzer.js lines
283–292 stores a successful chunk's output only when it is the *first*
(`i === 0`) or the *last* (`i === n - 1`) chunk; a successful middle chunk
is discarded.  Amended statement, changed only as the counterexample
forces: in a multi-chunk run the returned result equals the last chunk's
output if the last chunk's submission succeeded, otherwise the first
chunk's output if the first chunk's submission succeeded, otherwise the
empty string.  The spec's concrete 3-chunk scenario (chunk 2 fails all
retries, chunks 1 and 3 succeed → `success = true`,
`failedChunkIndices = [2]`, result = chunk 3's output) does hold, and is
the second conjunct. -/
theorem claim_C1 :
    (∀ (jsonReformat : String → Option String) (cfg : ChunkConfig)
        (submit : Nat → Except String String) (jsonFiles : List (String × String)),
      2 ≤ (processJsonFiles jsonReformat cfg jsonFiles).length →
      (analyzeProfile jsonReformat cfg submit jsonFiles).profile =
        some (match submit ((processJsonFiles jsonReformat cfg jsonFiles).length - 1) with
              | .ok t => t
              | .error _ => match submit 0 with | .ok t => t | .error _ => ""))
    ∧ analyzeProfile (fun _ => none) ⟨40, 10⟩ scenarioSubmit scenarioFiles =
        { success := true, profile := some "C", error := none,
          stats := some { filesProcessed := 3, chunksProcessed := 3, chunksSuccessful := 2,
                          chunksFailed := [2], profileLength := 1, wordCount := 1 } } := by
  constructor
  · intro jsonReformat cfg submit jsonFiles h2
    have hn0 : ¬ ((processJsonFiles jsonReformat cfg jsonFiles).length = 0) := by omega
    have hn1 : ¬ ((processJsonFiles jsonReformat cfg jsonFiles).length = 1) := by omega
    unfold analyzeProfile analyzeProfileTry
    rw [if_neg hn0, if_neg hn1]
    show some (multiChunkFold (processJsonFiles jsonReformat cfg jsonFiles).length submit).1 = _
    rw [multiChunkFold_fst submit _ h2]
  · decide

/-- Claim C1, counterexample to the original statement: with 3 chunks where
chunks 1 and 2 succeed (outputs "A", "B") and chunk 3 fails all retries,
the last chunk whose submission succeeded is chunk 2 with output "B", but
the code returns "A" (the first chunk's output): a successful middle
chunk's output is discarded, not kept as the running result. -/
theorem claim_C1_counterexample :
    counterexSubmit 0 = .ok "A" ∧ counterexSubmit 1 = .ok "B"
    ∧ counterexSubmit 2 = .error "boom"
    ∧ (processJsonFiles (fun _ => none) ⟨40, 10⟩ scenarioFiles).length = 3
    ∧ (analyzeProfile (fun _ => none) ⟨40, 10⟩ counterexSubmit scenarioFiles).profile = some "A"
    ∧ (some "A" : Option String) ≠ some "B" :=
  ⟨rfl, rfl, rfl, by decide, by decide, by decide⟩

/-- Claim C1, witness: the amended theorem applied to the concrete 3-chunk
scenario input. -/
theorem claim_C1_witness :
    2 ≤ (processJsonFiles (fun _ => none) ⟨40, 10⟩ scenarioFiles).length
    ∧ (analyzeProfile (fun _ => none) ⟨40, 10⟩ scenarioSubmit scenarioFiles).profile =
        some (match scenarioSubmit
                ((processJsonFiles (fun _ => none) ⟨40, 10⟩ scenarioFiles).length - 1) with
              | .ok t => t
              | .error _ => match scenarioSubmit 0 with | .ok t => t | .error _ => "") :=
  ⟨by decide, claim_C1.1 (fun _ => none) ⟨40, 10⟩ scenarioSubmit scenarioFiles (by decide)⟩

/-- Claim C2 (corrected).  The original claim — concatenating all chunks'
file entries reproduces *every* input file's entry exactly once, no file
dropped — fails for a `.json` file whose content `JSON.parse` cannot parse:
the `catch` in profileAnalyzer.js lines 124–126 skips that file, so it
appears in no chunk.  Amended statement: the chunk list is exactly
`strConcat` mapped over a partition (`chunkPartition`) of the formatted
entries, and the partition's flattening is a permutation of the formatted
entries of exactly the *successfully formatted* files, each exactly once —
so no successfully formatted entry is split across chunks, duplicated or
dropped, while files whose formatting throws are skipped. -/
theorem claim_C2 (jsonReformat : String → Option String) (cfg : ChunkConfig)
    (jsonFiles : List (String × String)) :
    processJsonFiles jsonReformat cfg jsonFiles =
      (chunkPartition jsonReformat cfg jsonFiles).map strConcat
    ∧ (chunkPartition jsonReformat cfg jsonFiles).flatten.Perm
        (jsonFiles.filterMap (formattedEntry jsonReformat)) :=
  ⟨processJsonFiles_eq jsonReformat cfg jsonFiles, by
    rw [chunkPartition_flatten]
    exact formattedEntries_perm jsonReformat jsonFiles⟩

/-- Claim C2, counterexample to the original statement: `JSON.parse` throws
on the content `"not json"` (modelled by the reformat oracle returning
`none`), so the only input file is skipped by the `catch` block and the
chunker emits no chunk at all — the file's entry does not appear in any
chunk, refuting "every file appears in exactly one chunk, none dropped". -/
theorem claim_C2_counterexample :
    processJsonFiles (fun _ => none) defaultChunkConfig [("a.json", "not json")] = [] := by
  decide

/-- Claim C6 (confirmed).  Every chunk emitted by the chunker either fits
the `maxChunkSize` budget or consists of exactly one file's formatted
entry; and a file whose formatted entry alone exceeds the budget is still
emitted, as a chunk of its own (not split, not dropped). -/
theorem claim_C6 (jsonReformat : String → Option String) (cfg : ChunkConfig)
    (jsonFiles : List (String × String)) :
    (∀ c ∈ processJsonFiles jsonReformat cfg jsonFiles,
        c.length ≤ cfg.maxChunkSize ∨
        ∃ fn content fc, (fn, content) ∈ jsonFiles
          ∧ formatFile jsonReformat fn content = some fc ∧ c = fileEntry fn fc)
    ∧ (∀ fn content fc, (fn, content) ∈ jsonFiles →
        formatFile jsonReformat fn content = some fc →
        cfg.maxChunkSize < (fileEntry fn fc).length →
        fileEntry fn fc ∈ processJsonFiles jsonReformat cfg jsonFiles) := by
  constructor
  · intro c hc
    rw [processJsonFiles_eq] at hc
    obtain ⟨es, hes, rfl⟩ := List.mem_map.mp hc
    rcases chunkPartition_size jsonReformat cfg jsonFiles es hes with hle | hone
    · exact Or.inl hle
    · obtain ⟨e, rfl⟩ := List.length_eq_one.mp hone
      have he : e ∈ (chunkPartition jsonReformat cfg jsonFiles).flatten :=
        List.mem_flatten.mpr ⟨[e], hes, List.mem_singleton_self e⟩
      rw [chunkPartition_flatten] at he
      unfold formattedEntries at he
      obtain ⟨fc, hfcmem, hfc⟩ := List.mem_filterMap.mp he
      obtain ⟨f, hf, rfl⟩ := Option.map_eq_some'.mp hfc
      exact Or.inr ⟨fc.1, fc.2, f, (sortEntries_perm jsonFiles).mem_iff.mp hfcmem, hf,
        strConcat_singleton _⟩
  · intro fn content fc hmem hfmt hbig
    have hentry : fileEntry fn fc ∈ formattedEntries jsonReformat jsonFiles := by
      unfold formattedEntries
      refine List.mem_filterMap.mpr ⟨(fn, content), ?_, ?_⟩
      · exact (sortEntries_perm jsonFiles).mem_iff.mpr hmem
      · simp [formattedEntry, hfmt]
    rw [← chunkPartition_flatten jsonReformat cfg jsonFiles] at hentry
    obtain ⟨es, hes, he⟩ := List.mem_flatten.mp hentry
    rcases chunkPartition_size jsonReformat cfg jsonFiles es hes with hle | hone
    · exfalso
      have := length_le_of_mem_strConcat he
      omega
    · obtain ⟨e', rfl⟩ := List.length_eq_one.mp hone
      have heq : fileEntry fn fc = e' := List.mem_singleton.mp he
      rw [processJsonFiles_eq]
      refine List.mem_map.mpr ⟨[e'], hes, ?_⟩
      rw [strConcat_singleton, heq]

/-- Claim C6, witness: a single 20-character `.txt` file under a
15-character budget; its 39-character entry exceeds the budget and is
nevertheless emitted as a chunk of its own. -/
theorem claim_C6_witness :
    (("a.txt", "aaaaaaaaaaaaaaaaaaaa") ∈ ([("a.txt", "aaaaaaaaaaaaaaaaaaaa")] :
        List (String × String)))
    ∧ formatFile (fun _ => none) "a.txt" "aaaaaaaaaaaaaaaaaaaa" = some "aaaaaaaaaaaaaaaaaaaa"
    ∧ (15 : Nat) < (fileEntry "a.txt" "aaaaaaaaaaaaaaaaaaaa").length
    ∧ fileEntry "a.txt" "aaaaaaaaaaaaaaaaaaaa" ∈
        processJsonFiles (fun _ => none) ⟨15, 10⟩ [("a.txt", "aaaaaaaaaaaaaaaaaaaa")] :=
  ⟨by decide, by decide, by decide,
    (claim_C6 (fun _ => none) ⟨15, 10⟩ [("a.txt", "aaaaaaaaaaaaaaaaaaaa")]).2
      "a.txt" "aaaaaaaaaaaaaaaaaaaa" "aaaaaaaaaaaaaaaaaaaa"
      (by decide) (by decide) (by decide)⟩

/-- Claim C9 (confirmed).  `analyzeProfile` is total at its interface: the
`try` block's outcome is always converted to a plain result object; in
particular when the block throws (zero chunks, or a single-chunk submission
failing all its retries) the catch in profileAnalyzer.js lines 325–332
returns `success = false`, `error` = the thrown error's message and
`profile = null`, and no exception reaches the caller. -/
theorem claim_C9 (jsonReformat : String → Option String) (cfg : ChunkConfig)
    (submit : Nat → Except String String) (jsonFiles : List (String × String)) :
    (match analyzeProfileTry jsonReformat cfg submit jsonFiles with
     | .ok r => analyzeProfile jsonReformat cfg submit jsonFiles = r
     | .error e => analyzeProfile jsonReformat cfg submit jsonFiles =
         { success := false, profile := none, error := some e, stats := none }) := by
  unfold analyzeProfile
  cases h : analyzeProfileTry jsonReformat cfg submit jsonFiles with
  | ok r => rfl
  | error e => rfl

/-- Claim C3 (corrected).  The original claim — the `.html` alternative is
computed by stripping the *trailing* `.json` and appending `.html` — is
false: `normalizedPattern.replace('.json', '')` (promptDataSelector.js line
38) removes the *first* occurrence of `.json`, which differs from the
trailing one when `.json` occurs earlier in the pattern.  Amended
statement: for every pattern `p` whose normalization ends in `.json`, the
path obtained by removing the first occurrence of `.json` from the
normalized pattern and appending `.html` matches, both bare and under any
directory prefix `pre`.  (For the common case of a single trailing
`.json`, first-occurrence removal and extension swap coincide.) -/
theorem claim_C3 (p pre : String)
    (h : jsEndsWith (normalizePath p) ".json" = true) :
    matchesPattern (jsReplaceFirst (normalizePath p) ".json" "" ++ ".html") p = true
    ∧ matchesPattern (pre ++ "/" ++ (jsReplaceFirst (normalizePath p) ".json" "" ++ ".html")) p
        = true := by
  have hbase : ∀ c ∈ (jsReplaceFirst (normalizePath p) ".json" "" ++ ".html").data,
      normChar c = c := by
    intro c hc
    rw [String.data_append] at hc
    rcases List.mem_append.mp hc with h' | h'
    · exact basePattern_chars (normalizePath_chars p) c h'
    · exact html_chars_fixed c h'
  have hnf1 : normalizePath (jsReplaceFirst (normalizePath p) ".json" "" ++ ".html")
      = jsReplaceFirst (normalizePath p) ".json" "" ++ ".html" := normalizePath_fixed hbase
  constructor
  · unfold matchesPattern
    rw [h, hnf1]
    simp
  · have hsfx : jsEndsWith
        (normalizePath (pre ++ "/" ++ (jsReplaceFirst (normalizePath p) ".json" "" ++ ".html")))
        ("/" ++ jsReplaceFirst (normalizePath p) ".json" "" ++ ".html") = true := by
      have hdata : (normalizePath
            (pre ++ "/" ++ (jsReplaceFirst (normalizePath p) ".json" "" ++ ".html"))).data
          = pre.data.map normChar
            ++ (("/" : String).data
                ++ (jsReplaceFirst (normalizePath p) ".json" "" ++ ".html").data) := by
        rw [normalizePath_data, String.data_append, String.data_append, List.map_append,
          List.map_append, map_normChar_fixed slash_chars_fixed, map_normChar_fixed hbase,
          List.append_assoc]
      have hsplit : (("/" ++ jsReplaceFirst (normalizePath p) ".json" "" ++ ".html") :
            String).data
          = ("/" : String).data
            ++ (jsReplaceFirst (normalizePath p) ".json" "" ++ ".html").data := by
        rw [String.data_append, String.data_append, String.data_append, List.append_assoc]
      simp only [jsEndsWith, decide_eq_true_eq]
      rw [hdata, hsplit]
      exact List.suffix_append _ _
    unfold matchesPattern
    rw [h, hsfx]
    simp

/-- Claim C3, counterexample to the original statement: the pattern
`"x.jsony.json"` ends in `.json`, and the path `"x.jsony.html"` is exactly
that pattern with its trailing `.json` replaced by `.html`; the claim says
it must match, but `replace('.json', '')` removes the *first* occurrence,
computing the base `"xy.json"` and hence the alternative name
`"xy.json.html"`, so the match returns `false`. -/
theorem claim_C3_counterexample :
    ("x.jsony.json" : String) = "x.jsony" ++ ".json"
    ∧ ("x.jsony.html" : String) = "x.jsony" ++ ".html"
    ∧ jsReplaceFirst (normalizePath "x.jsony.json") ".json" "" = "xy.json"
    ∧ matchesPattern "x.jsony.html" "x.jsony.json" = false :=
  ⟨by decide, by decide, by decide, by decide⟩

/-- Claim C3, witness: the amended theorem applied to the ordinary pattern
`"ads/prefs.json"` (single trailing `.json`), whose computed alternative is
`"ads/prefs.html"`; it matches both bare and under the prefix `"data"`. -/
theorem claim_C3_witness :
    jsReplaceFirst (normalizePath "ads/prefs.json") ".json" "" ++ ".html" = "ads/prefs.html"
    ∧ (matchesPattern (jsReplaceFirst (normalizePath "ads/prefs.json") ".json" "" ++ ".html")
          "ads/prefs.json" = true
      ∧ matchesPattern
          ("data" ++ "/" ++ (jsReplaceFirst (normalizePath "ads/prefs.json") ".json" "" ++ ".html"))
          "ads/prefs.json" = true) :=
  ⟨by decide, claim_C3 "ads/prefs.json" "data" (by decide)⟩

/-- Claim C8 (corrected).  The original claim — the empty pattern matches
no path — is false: an empty pattern is not special-cased anywhere in
`matchesPattern` (promptDataSelector.js lines 44–46); it falls into the
folder branch, which tests `startsWith("" + "/")` and `includes("/" + "" +
"/")`, so a path beginning with `/` or containing `//` *does* match.
Amended statement: the empty pattern matches exactly the paths whose
normalization starts with `"/"` or contains `"//"`; in particular ordinary
relative paths never match. -/
theorem claim_C8 (path : String) :
    matchesPattern path "" =
      (jsStartsWith (normalizePath path) "/" || jsIncludes (normalizePath path) "//") := by
  have h3 : jsEndsWith (normalizePath "") ".json" = false := by decide
  have h1 : normalizePath "" ++ "/" = "/" := by decide
  have h2 : "/" ++ normalizePath "" ++ "/" = "//" := by decide
  unfold matchesPattern
  rw [h3, h1, h2]
  simp

/-- Claim C8, counterexample to the original statement: the empty pattern
matches the path `"/a"` (it starts with `"/"`), though the claim requires
`matches(path, "") = false` for every path; an ordinary relative path such
as `"a/b"` indeed does not match. -/
theorem claim_C8_counterexample :
    matchesPattern "/a" "" = true ∧ matchesPattern "a/b" "" = false :=
  ⟨by decide, by decide⟩

/-- Claim C4 (corrected).  The original claim — a missing profile *or a
profile with no patterns* fails open — is half right: the fail-open test is
`!promptSettings || !promptSettings.data` (promptDataSelector.js line 73),
and an *empty* `data` array is truthy in JS, so a profile with an empty
pattern list does **not** fail open (it yields `configFound = true` and an
empty selection, see the counterexample).  Amended statement: the selector
returns the fail-open result exactly when no profile's name equals the
requested name, or the matched profile's `data` field is absent. -/
theorem claim_C4 (prompts : List PromptProfile) (promptName : String)
    (extractedData : List (String × String))
    (h : prompts.find? (fun q => q.name == promptName) = none
       ∨ ∃ ps, prompts.find? (fun q => q.name == promptName) = some ps ∧ ps.data = none) :
    selectDataForPrompt (some ⟨some prompts⟩) promptName extractedData
      = failOpenResult extractedData := by
  show selectFor extractedData (prompts.find? (fun q => q.name == promptName))
    = failOpenResult extractedData
  rcases h with hnone | ⟨ps, hfind, hdata⟩
  · rw [hnone]
    rfl
  · obtain ⟨nm, d⟩ := ps
    have hd : d = none := hdata
    subst hd
    rw [hfind]
    rfl

/-- Claim C4, counterexample to the original statement: a configured
profile whose pattern list is present but *empty* does not fail open — the
result has `configFound = true` and an empty selection instead of the full
input set. -/
theorem claim_C4_counterexample :
    (selectDataForPrompt (some ⟨some [⟨"p", some []⟩]⟩) "p" [("a.txt", "x")]).configFound = true
    ∧ (selectDataForPrompt (some ⟨some [⟨"p", some []⟩]⟩) "p" [("a.txt", "x")]).selectedData = []
    ∧ ([("a.txt", "x")] : List (String × String)) ≠ [] :=
  ⟨by decide, by decide, by decide⟩

/-- Claim C4, witness: the amended theorem applied to a configuration whose
only profile has a different name, so the lookup fails and the selector
fails open to the full input set with `configFound = false`. -/
theorem claim_C4_witness :
    selectDataForPrompt (some ⟨some [⟨"other", some ["x"]⟩]⟩) "p" [("a.txt", "1")]
      = failOpenResult [("a.txt", "1")] :=
  claim_C4 [⟨"other", some ["x"]⟩] "p" [("a.txt", "1")] (Or.inl (by decide))

/-- Claim C5 (corrected).  The original claim — `usedPaths` never contains
duplicates, its length equals the number of distinct keys of
`selectedFiles`, and its paths come from the input — fails when an
extracted file's content is the empty string: `if (!selectedData[file])`
(promptDataSelector.js line 100) treats the stored empty string as "not
yet selected", so a second pattern matching the same file pushes its path
onto `usedFiles` again (see the counterexample).  Amended statement: the
invariants hold for every input whose paths are distinct (JS object keys
always are) and whose contents are all non-empty. -/
theorem claim_C5 (promptConfig : Option PromptConfig) (promptName : String)
    (extractedData : List (String × String))
    (hkeys : (extractedData.map Prod.fst).Nodup)
    (hne : ∀ q ∈ extractedData, q.2 ≠ "") :
    (selectDataForPrompt promptConfig promptName extractedData).usedFiles.Nodup
    ∧ (selectDataForPrompt promptConfig promptName extractedData).usedFiles.length
        = ((selectDataForPrompt promptConfig promptName extractedData).selectedData.map
            Prod.fst).dedup.length
    ∧ ∀ f ∈ (selectDataForPrompt promptConfig promptName extractedData).usedFiles,
        f ∈ extractedData.map Prod.fst := by
  have hopen : (failOpenResult extractedData).usedFiles.Nodup
      ∧ (failOpenResult extractedData).usedFiles.length
          = ((failOpenResult extractedData).selectedData.map Prod.fst).dedup.length
      ∧ ∀ f ∈ (failOpenResult extractedData).usedFiles, f ∈ extractedData.map Prod.fst := by
    refine ⟨hkeys, ?_, fun f hf => hf⟩
    show (extractedData.map Prod.fst).length = (extractedData.map Prod.fst).dedup.length
    rw [List.dedup_eq_self.mpr hkeys]
  have hfor : ∀ r : Option PromptProfile,
      (selectFor extractedData r).usedFiles.Nodup
      ∧ (selectFor extractedData r).usedFiles.length
          = ((selectFor extractedData r).selectedData.map Prod.fst).dedup.length
      ∧ ∀ f ∈ (selectFor extractedData r).usedFiles, f ∈ extractedData.map Prod.fst := by
    intro r
    rcases r with _ | ⟨nm, _ | pats⟩
    · exact hopen
    · exact hopen
    · obtain ⟨h1, h2, h3, _⟩ := selectLoop_inv extractedData hne pats
      refine ⟨h2, ?_, h3⟩
      show (selectLoop extractedData pats).2.length
          = ((selectLoop extractedData pats).1.map Prod.fst).dedup.length
      rw [h1, List.dedup_eq_self.mpr h2]
  rcases promptConfig with _ | ⟨_ | prompts⟩
  · exact hopen
  · exact hopen
  · exact hfor (prompts.find? (fun p => p.name == promptName))

/-- Claim C5, counterexample to the original statement: one extracted file
`"a.json"` with empty content and a profile listing the pattern `"a.json"`
twice; the second pattern re-adds the already-selected file because its
stored content `""` is falsy, so `usedPaths = ["a.json", "a.json"]` has a
duplicate and its length 2 differs from the single distinct key of
`selectedFiles`. -/
theorem claim_C5_counterexample :
    (selectDataForPrompt (some ⟨some [⟨"p", some ["a.json", "a.json"]⟩]⟩) "p"
        [("a.json", "")]).usedFiles = ["a.json", "a.json"]
    ∧ ¬ (selectDataForPrompt (some ⟨some [⟨"p", some ["a.json", "a.json"]⟩]⟩) "p"
        [("a.json", "")]).usedFiles.Nodup
    ∧ ((selectDataForPrompt (some ⟨some [⟨"p", some ["a.json", "a.json"]⟩]⟩) "p"
        [("a.json", "")]).selectedData.map Prod.fst).dedup.length = 1 :=
  ⟨by decide, by decide, by decide⟩

/-- Claim C5, witness: the amended theorem applied to the same
configuration with a non-empty content, where the invariants hold. -/
theorem claim_C5_witness :
    (selectDataForPrompt (some ⟨some [⟨"p", some ["a.json", "a.json"]⟩]⟩) "p"
        [("a.json", "x")]).usedFiles.Nodup
    ∧ (selectDataForPrompt (some ⟨some [⟨"p", some ["a.json", "a.json"]⟩]⟩) "p"
        [("a.json", "x")]).usedFiles.length
        = ((selectDataForPrompt (some ⟨some [⟨"p", some ["a.json", "a.json"]⟩]⟩) "p"
            [("a.json", "x")]).selectedData.map Prod.fst).dedup.length
    ∧ ∀ f ∈ (selectDataForPrompt (some ⟨some [⟨"p", some ["a.json", "a.json"]⟩]⟩) "p"
        [("a.json", "x")]).usedFiles, f ∈ ([("a.json", "x")] :
          List (String × String)).map Prod.fst :=
  claim_C5 (some ⟨some [⟨"p", some ["a.json", "a.json"]⟩]⟩) "p" [("a.json", "x")]
    (by decide) (by decide)

/-- Claim C7 (confirmed).  Single-chunk submission: (1) the run consults
only attempts `0..MAX_RETRIES` (at most 4 fetches); (2) the backoff delays
slept form the initial segment `RETRY_DELAY * 2 ^ k` for `k = 0, 1, …`
(i.e. the delay before retry `k`, 1-based, is `baseDelay * 2^(k-1)`), at
most `MAX_RETRIES` of them; (3) a success response with no `choices` field
is converted to a thrown error; (4) such a malformed success response at
any attempt that still has retries left behaves exactly like a network
error there; (5) when every allowed attempt fails, the run's outcome is
the error of the last attempt, carrying that failure's message. -/
theorem claim_C7 :
    (∀ f g : Nat → FetchOutcome, (∀ j, j ≤ MAX_RETRIES → f j = g j) →
      generateProfileRun f = generateProfileRun g)
    ∧ (∀ f : Nat → FetchOutcome, ∃ m, m ≤ MAX_RETRIES ∧
        (generateProfileRun f).2 = (List.range m).map (fun k => RETRY_DELAY * 2 ^ k))
    ∧ attemptOutcome (.httpOk ⟨none⟩) = .error "No choices returned from OpenRouter API"
    ∧ (∀ (f g : Nat → FetchOutcome) (j : Nat) (msg : String), j < MAX_RETRIES →
        f j = .httpOk ⟨none⟩ → g j = .networkError msg → (∀ i, i ≠ j → f i = g i) →
        generateProfileRun f = generateProfileRun g)
    ∧ (∀ f : Nat → FetchOutcome,
        (∀ j, j ≤ MAX_RETRIES → ∃ e, attemptOutcome (f j) = .error e) →
        (generateProfileRun f).1 = attemptOutcome (f MAX_RETRIES)) := by
  refine ⟨?_, ?_, rfl, ?_, ?_⟩
  · intro f g h
    exact runRetries_congr RETRY_DELAY MAX_RETRIES 0 f g (fun j _ h2 => h j (by omega))
  · intro f
    obtain ⟨m, hm, he⟩ := runRetries_delays RETRY_DELAY MAX_RETRIES 0 f
    rw [← List.range_eq_range'] at he
    exact ⟨m, hm, he⟩
  · intro f g j msg hj hf hg hfg
    apply runRetries_err_congr RETRY_DELAY MAX_RETRIES 0 f g
    intro k _ _
    by_cases hk : k = j
    · subst hk
      exact Or.inr ⟨by omega, ⟨"No choices returned from OpenRouter API", by rw [hf]; rfl⟩,
        ⟨msg, by rw [hg]; rfl⟩⟩
    · exact Or.inl (hfg k hk)
  · intro f h
    have hall := runRetries_allFail RETRY_DELAY MAX_RETRIES 0 f (fun j hj => by
      obtain ⟨e, he⟩ := h j hj
      exact ⟨e, by rw [show (0 : Nat) + j = j from by omega]; exact he⟩)
    rw [show (0 : Nat) + MAX_RETRIES = MAX_RETRIES from by omega] at hall
    exact hall

/-- Claim C7, witness: the theorem's exhaustion clause applied to an
always-failing oracle (terminal error carries the last failure's message),
and its malformed-response clause applied at attempt 0 (a `choices`-less
success behaves exactly like a network error there). -/
theorem claim_C7_witness :
    (generateProfileRun (fun _ => .networkError "down")).1 = .error "down"
    ∧ generateProfileRun (fun i => if i = 0 then .httpOk ⟨none⟩ else .networkError "down")
        = generateProfileRun
            (fun i => if i = 0 then .networkError "alt" else .networkError "down") := by
  constructor
  · exact claim_C7.2.2.2.2 (fun _ => .networkError "down") (fun j _ => ⟨"down", rfl⟩)
  · exact claim_C7.2.2.2.1 _ _ 0 "alt" (by decide) rfl rfl
      (fun i hi => by simp [hi])

/-- Claim C10 (confirmed).  A file whose (lowercased) name ends in `.html`
and whose content exceeds 50000 characters has its chunk entry content
truncated to the first 50000 characters followed by the fixed truncation
notice. -/
theorem claim_C10 (jsonReformat : String → Option String) (filename content : String)
    (hhtml : jsEndsWith (jsToLower filename) ".html" = true)
    (hlen : 50000 < content.length) :
    formatFile jsonReformat filename content =
      some (jsSubstringTo content 50000 ++ truncNotice) := by
  unfold formatFile
  rw [suffix_html_not_json hhtml, hhtml, if_neg Bool.false_ne_true, if_pos rfl, if_pos hlen]

/-- Claim C10, witness: the theorem applied to `"a.html"` with a
50001-character content. -/
theorem claim_C10_witness :
    jsEndsWith (jsToLower "a.html") ".html" = true
    ∧ 50000 < bigHtml.length
    ∧ formatFile (fun _ => none) "a.html" bigHtml =
        some (jsSubstringTo bigHtml 50000 ++ truncNotice) := by
  have h2 : 50000 < bigHtml.length := by
    have : bigHtml.length = 50001 := by
      show (List.replicate 50001 'x').length = 50001
      simp only [List.length_replicate]
    omega
  exact ⟨by decide, h2, claim_C10 (fun _ => none) "a.html" bigHtml (by decide) h2⟩

end FacebookProfiler
